import Mathlib

/-!
Verification of the Inspired-AI streaming voice assistant front-end.

The development shallowly embeds the state-bearing logic of `src/App.tsx`,
which contains two near-duplicate application variants (separated by a
document marker in the source):

* variant 1 ("Inspired Sonic", lines 1-311): tools `updateVerseDisplay`
  and `toggleVerseLock`; capture-send guard `status !== ERROR`.
* variant 2 ("IWC Live AI", lines 311-706): tools `updateVerseDisplay`
  and `setTranslation`; lock and default translation carried in refs
  (`lockRef`, `translationRef`) frozen for the duration of one inbound
  message; no capture-send guard.

Machine floats are modelled by exact rationals; JavaScript `Int16Array`
element conversion is modelled by truncation toward zero followed by
wrap-around modulo 2^16 (ECMAScript ToInt16).  The base64 transport codec
lives in `utils/audioUtils` which is not part of the provided sources and
is therefore modelled from the spec.
-/

namespace InspiredAI

/-- Session lifecycle states, from `types.ts` (`SessionStatus`). -/
inductive SessionStatus where
  | idle
  | connecting
  | listening
  | error
deriving DecidableEq, Repr

/-- The verse display record, from `types.ts` (`VerseData`). -/
structure VerseData where
  reference : String
  text : String
  translation : String
deriving DecidableEq, Repr

/-- One structured function call received inside an inbound `toolCall`
message: `{id, name, args}` with the argument fields that the two app
variants read (`reference`, `text`, `translation`, `isLocked`).  Absent
JSON fields are `none`. -/
structure FunctionCall where
  id : String
  name : String
  argReference : Option String
  argText : Option String
  argTranslation : Option String
  argIsLocked : Bool
deriving DecidableEq, Repr

/-- Payload of a tool response, covering the four response shapes sent by
the two variants. -/
inductive ResponsePayload where
  | displayed
  | ignoredLocked
  | locked (b : Bool)
  | currentTranslation (t : String)
deriving DecidableEq, Repr

/-- A tool response correlated to its originating call by `id`. -/
structure ToolResponse where
  id : String
  name : String
  payload : ResponsePayload
deriving DecidableEq, Repr

/-- JavaScript `a || d` for an optional string argument: `undefined` and
the empty string are both falsy and fall back to the default. -/
def strOr (v : Option String) (d : String) : String :=
  match v with
  | none => d
  | some s => if s = "" then d else s

/-- Mutable state read and written by variant 1's message handler. -/
structure AppStateV1 where
  currentVerse : Option VerseData
  isLocked : Bool
  status : SessionStatus
deriving DecidableEq, Repr

/-- Mutable state read and written by variant 2's message handler
(`currentVerse`, `lockRef`, `translationRef`). -/
structure AppStateV2 where
  currentVerse : Option VerseData
  isLocked : Bool
  defaultTranslation : String
deriving DecidableEq, Repr

/-- Variant 1 dispatch of a single function call (App.tsx lines 119-144).
The `updateVerseDisplay` branch replaces the verse unconditionally - the
lock flag is never consulted, despite the adjacent source comment
"Only update if not locked or if it's a specific new reference" - and
always answers `{status: "displayed"}`.  `toggleVerseLock` sets the lock
and echoes it.  Unrecognized names produce no response. -/
def dispatchFcV1 (st : AppStateV1) (fc : FunctionCall) :
    AppStateV1 × Option ToolResponse :=
  if fc.name = "updateVerseDisplay" then
    ({ st with currentVerse := some {
          reference := strOr fc.argReference "...",
          text := strOr fc.argText "...",
          translation := strOr fc.argTranslation "NIV" } },
     some { id := fc.id, name := fc.name, payload := ResponsePayload.displayed })
  else if fc.name = "toggleVerseLock" then
    ({ st with isLocked := fc.argIsLocked },
     some { id := fc.id, name := fc.name,
            payload := ResponsePayload.locked fc.argIsLocked })
  else (st, none)

/-- Variant 2 dispatch of a single function call (App.tsx lines 465-493).
`lock0` and `trans0` are the values of `lockRef.current` and
`translationRef.current` at message receipt; React updates these refs
only after the handler returns, so they are frozen for the whole loop.
`updateVerseDisplay` mutates the verse only when unlocked and answers
`"ignored_locked"` or `"displayed"` accordingly; `setTranslation`
unconditionally installs `args.translation || 'NIV'` and echoes it. -/
def dispatchFcV2 (lock0 : Bool) (trans0 : String) (st : AppStateV2)
    (fc : FunctionCall) : AppStateV2 × Option ToolResponse :=
  if fc.name = "updateVerseDisplay" then
    (if lock0 then st else
      { st with currentVerse := some {
            reference := strOr fc.argReference "...",
            text := strOr fc.argText "...",
            translation := strOr fc.argTranslation trans0 } },
     some { id := fc.id, name := fc.name,
            payload := if lock0 then ResponsePayload.ignoredLocked
                       else ResponsePayload.displayed })
  else if fc.name = "setTranslation" then
    ({ st with defaultTranslation := strOr fc.argTranslation "NIV" },
     some { id := fc.id, name := fc.name,
            payload := ResponsePayload.currentTranslation
              (strOr fc.argTranslation "NIV") })
  else (st, none)

/-- Variant 1's `for (const fc of message.toolCall.functionCalls)` loop:
dispatch each call in order, collecting the responses in order. -/
def dispatchMessageV1 (st : AppStateV1) :
    List FunctionCall → AppStateV1 × List ToolResponse
  | [] => (st, [])
  | fc :: rest =>
    let p := dispatchFcV1 st fc
    let q := dispatchMessageV1 p.1 rest
    (q.1, match p.2 with
          | some r => r :: q.2
          | none => q.2)

/-- Variant 2's dispatch loop with the lock and translation refs frozen
at their values on message receipt. -/
def dispatchMessageGoV2 (lock0 : Bool) (trans0 : String) (st : AppStateV2) :
    List FunctionCall → AppStateV2 × List ToolResponse
  | [] => (st, [])
  | fc :: rest =>
    let p := dispatchFcV2 lock0 trans0 st fc
    let q := dispatchMessageGoV2 lock0 trans0 p.1 rest
    (q.1, match p.2 with
          | some r => r :: q.2
          | none => q.2)

/-- Variant 2's `onmessage` tool-call handling for one inbound message. -/
def dispatchMessageV2 (st : AppStateV2) (fcs : List FunctionCall) :
    AppStateV2 × List ToolResponse :=
  dispatchMessageGoV2 st.isLocked st.defaultTranslation st fcs

/-- Command names recognized by variant 1's dispatcher. -/
def recognizedV1 (n : String) : Bool :=
  n = "updateVerseDisplay" || n = "toggleVerseLock"

/-- Command names recognized by variant 2's dispatcher. -/
def recognizedV2 (n : String) : Bool :=
  n = "updateVerseDisplay" || n = "setTranslation"

/-- An `AudioBufferSourceNode` as the app observes it: every node held in
`sourcesRef` had `start()` called on it; `finished` records that its
playback already ended; `stopped` that `stop()` was called. -/
structure AudioSource where
  sid : Nat
  started : Bool
  finished : Bool
  stopped : Bool
deriving DecidableEq, Repr

/-- Web Audio `source.stop()`: throws `InvalidStateError` when the node
was never started, and otherwise succeeds - also on a node whose
playback already finished. -/
def sourceStopExc (s : AudioSource) : Except String AudioSource :=
  if s.started then Except.ok { s with stopped := true }
  else Except.error "InvalidStateError"

/-- The `try { source.stop(); } catch (e) {}` wrapper in `stopAllAudio`
(App.tsx lines 70-76 and 409-415): any exception is swallowed. -/
def tryStop (s : AudioSource) : AudioSource :=
  match sourceStopExc s with
  | Except.ok s' => s'
  | Except.error _ => s

/-- Playback scheduler state: `nextStartTimeRef` and the set of
currently scheduled sources `sourcesRef`. -/
structure PlaybackState where
  nextStartTime : ℚ
  active : List AudioSource
deriving DecidableEq, Repr

/-- `stopAllAudio` (both variants): stop every source in `sourcesRef`
under a try/catch, clear the set, reset `nextStartTimeRef` to 0.  The
second component returns the sources after their `stop()` call, for
observability (the code drops them). -/
def stopAllAudio (st : PlaybackState) : PlaybackState × List AudioSource :=
  ({ nextStartTime := 0, active := [] }, st.active.map tryStop)

/-- The `if (message.serverContent?.interrupted) stopAllAudio();` branch
of both `onmessage` handlers (App.tsx lines 161 and 510). -/
def onInterrupted (st : PlaybackState) : PlaybackState × List AudioSource :=
  stopAllAudio st

/-- Scheduler state for reasoning about start times only: handles are
bare identifiers. -/
structure SchedState where
  nextStartTime : ℚ
  active : List Nat
deriving DecidableEq, Repr

/-- One audio chunk arrival in `onmessage` (App.tsx lines 150-158):
`nextStartTime := max(nextStartTime, currentTime)`; the source starts
exactly at that value (returned as second component); `nextStartTime`
advances by the chunk duration; the handle joins the active set. -/
def scheduleChunk (st : SchedState) (now dur : ℚ) (h : Nat) :
    SchedState × ℚ :=
  ({ nextStartTime := max st.nextStartTime now + dur,
     active := h :: st.active },
   max st.nextStartTime now)

/-- `source.onended = () => sourcesRef.current.delete(source)`. -/
def sourceEnded (st : SchedState) (h : Nat) : SchedState :=
  { st with active := st.active.erase h }

/-- Initial scheduler state: `nextStartTimeRef` starts at 0 with no
scheduled sources. -/
def schedInit : SchedState :=
  { nextStartTime := 0, active := [] }

/-- Run the scheduler over a list of chunk arrivals `(clockTime, dur)`,
returning the playback windows `(startTime, dur)` in arrival order. -/
def runWindows : SchedState → List (ℚ × ℚ) → List (ℚ × ℚ)
  | _, [] => []
  | st, c :: rest =>
    let p := scheduleChunk st c.1 c.2 0
    (p.2, c.2) :: runWindows p.1 rest

/-- Resources owned by one session lifecycle, as touched by
`stopSession`.  `sessionCloseRequested` records that the deferred
`session.close()` has been scheduled. -/
structure AppResources where
  status : SessionStatus
  sessionCloseRequested : Bool
  micOpen : Bool
  inputCtxOpen : Bool
  outputCtxOpen : Bool
  audioVolume : ℚ
  playback : PlaybackState
deriving DecidableEq, Repr

/-- Variant 1 `stopSession` (App.tsx lines 192-200): schedule the
transport close, stop the microphone tracks, close both device contexts
(failures swallowed), and set status to Idle.  The playback scheduler
state (`nextStartTimeRef`, `sourcesRef`) is not touched. -/
def stopSessionV1 (st : AppResources) : AppResources :=
  { st with
    sessionCloseRequested := true,
    micOpen := false,
    inputCtxOpen := false,
    outputCtxOpen := false,
    status := SessionStatus.idle }

/-- Variant 2 `stopSession` (App.tsx lines 562-577): same as variant 1
plus resetting the displayed input volume to 0. -/
def stopSessionV2 (st : AppResources) : AppResources :=
  { st with
    sessionCloseRequested := true,
    micOpen := false,
    inputCtxOpen := false,
    outputCtxOpen := false,
    audioVolume := 0,
    status := SessionStatus.idle }

/-- Outcome of one capture callback's outbound frame. -/
inductive SendOutcome where
  | notAttempted
  | transmitted
  | failedSilently
deriving DecidableEq, Repr

/-- Variant 1 `onaudioprocess` send path (App.tsx lines 111-113): the
frame is handed to `session.sendRealtimeInput` whenever the status the
callback observes is not `ERROR`; a send on a closed session fails and
the failure is swallowed by the `.catch(() => {})`. -/
def captureCallbackV1 (st : SessionStatus) (sessionClosed : Bool) :
    SendOutcome :=
  if st = SessionStatus.error then SendOutcome.notAttempted
  else if sessionClosed then SendOutcome.failedSilently
  else SendOutcome.transmitted

/-- Variant 2 `onaudioprocess` send path (App.tsx lines 457-459): the
send is attempted unconditionally; failures are swallowed by the
`.catch(() => {})`. -/
def captureCallbackV2 (_ : SessionStatus) (sessionClosed : Bool) :
    SendOutcome :=
  if sessionClosed then SendOutcome.failedSilently
  else SendOutcome.transmitted

/-- Truncation of a rational toward zero, as ECMAScript's ToInt16 first
step applies to a finite double. -/
def ratTrunc (q : ℚ) : ℤ :=
  if 0 ≤ q then ⌊q⌋ else ⌈q⌉

/-- ECMAScript ToInt16 of a finite value: truncate toward zero, reduce
modulo 2^16, reinterpret as a signed 16-bit value. -/
def toInt16 (q : ℚ) : ℤ :=
  let r := ratTrunc q % 65536
  if 32768 ≤ r then r - 65536 else r

/-- The capture quantization `int16[i] = inputData[i] * 32768` of both
variants (App.tsx lines 106 and 452), with `Int16Array` element
conversion semantics. -/
def quantizeSample (s : ℚ) : ℤ :=
  toInt16 (s * 32768)

/-- The quantization claimed by the spec: `round(s * 32768)` clipped to
the representable range `[-32768, 32767]`. -/
def specQuantize (s : ℚ) : ℤ :=
  max (-32768) (min 32767 (round (s * 32768)))

/-- Root-mean-square amplitude of a capture frame, squared form as
computed by variant 2 (App.tsx lines 443-447) before the square root. -/
def rmsSquared (frame : List ℚ) : ℚ :=
  (frame.map (fun s => s * s)).sum / frame.length

/-- Highlight fraction used by variant 1's `handleReadAloud`
(App.tsx line 225). -/
def highlightFractionV1 : ℚ := 9 / 10

/-- Highlight fraction used by variant 2's `handleReadAloud`
(App.tsx line 602). -/
def highlightFractionV2 : ℚ := 17 / 20

/-- Per-word highlight interval, variant 1:
`(buffer.duration * 0.9) / words.length`. -/
def durationPerWordV1 (duration : ℚ) (wordCount : ℕ) : ℚ :=
  duration * highlightFractionV1 / wordCount

/-- Per-word highlight interval, variant 2:
`(buffer.duration * 0.85) / words.length`. -/
def durationPerWordV2 (duration : ℚ) (wordCount : ℕ) : ℚ :=
  duration * highlightFractionV2 / wordCount

/-- One tick of the highlight `setInterval` (App.tsx lines 227-233 and
604-620; both variants advance iff the index is below `words.length - 1`
and otherwise cancel the interval).  Returns the new index and whether
the timer stays alive. -/
def highlightTick (wordCount : ℕ) (prev : ℤ) : ℤ × Bool :=
  if prev < (wordCount : ℤ) - 1 then (prev + 1, true) else (prev, false)

/-- Highlight index after `n` timer ticks, starting from
`setActiveWordIndex(0)` at narration start. -/
def highlightAfter (wordCount : ℕ) : ℕ → ℤ
  | 0 => 0
  | n + 1 => (highlightTick wordCount (highlightAfter wordCount n)).1

/-- Narration-synchronizer state visible to the UI. -/
structure NarrationState where
  activeWordIndex : ℤ
  timerActive : Bool
  isReadingAloud : Bool
deriving DecidableEq, Repr

/-- `source.onended` of `handleReadAloud` (both variants): cancel the
interval, clear the reading flag, clear the highlighted index to -1. -/
def narrationEnded (_ : NarrationState) : NarrationState :=
  { activeWordIndex := -1, timerActive := false, isReadingAloud := false }

/-- The standard base64 alphabet. -/
def b64Alphabet : List Char :=
  "ABCDEFGHIJKLMNOPQRSTUVWXYZabcdefghijklmnopqrstuvwxyz0123456789+/".toList

/-- Character for a sextet value. -/
def sextetToChar (n : Nat) : Char :=
  b64Alphabet.getD n 'A'

/-- Index of a character in a list, built by plain recursion so that its
specification lemmas are direct. -/
def charIndex (c : Char) : List Char → Option Nat
  | [] => none
  | a :: rest =>
    if a = c then some 0 else (charIndex c rest).map (fun i => i + 1)

/-- Sextet value of a base64 character, `none` for characters outside
the alphabet (including `'='`). -/
def charToSextet (c : Char) : Option Nat :=
  charIndex c b64Alphabet

/-- Modelled from the spec: `encodeToTransportText` of the missing
`utils/audioUtils` module - the deterministic, reversible ("no
information loss; pure function") base64-style encoding of a byte
sequence into transport text (spec sections 4.1 and 6).  Bytes are
naturals below 256. -/
def encodeToTransportText : List Nat → List Char
  | [] => []
  | [b0] =>
    [sextetToChar (b0 / 4), sextetToChar (b0 % 4 * 16), '=', '=']
  | [b0, b1] =>
    [sextetToChar (b0 / 4), sextetToChar (b0 % 4 * 16 + b1 / 16),
     sextetToChar (b1 % 16 * 4), '=']
  | b0 :: b1 :: b2 :: rest =>
    sextetToChar (b0 / 4) :: sextetToChar (b0 % 4 * 16 + b1 / 16) ::
    sextetToChar (b1 % 16 * 4 + b2 / 64) :: sextetToChar (b2 % 64) ::
    encodeToTransportText rest

/-- Modelled from the spec: the final (padded) four-character group of
`decodeFromTransportText`. -/
def decodeFinalGroup (c0 c1 c2 : Char) : Option (List Nat) :=
  (charToSextet c0).bind (fun s0 =>
    (charToSextet c1).bind (fun s1 =>
      if c2 = '=' then
        if s1 % 16 = 0 then some [s0 * 4 + s1 / 16] else none
      else
        (charToSextet c2).bind (fun s2 =>
          if s2 % 4 = 0 then
            some [s0 * 4 + s1 / 16, s1 % 16 * 16 + s2 / 4]
          else none)))

/-- Modelled from the spec: `decodeFromTransportText` of the missing
`utils/audioUtils` module - the inverse of `encodeToTransportText`,
failing (returning `none`, the `MalformedPayload` outcome) on any input
the encoder cannot produce (spec section 4.1). -/
def decodeFromTransportText : List Char → Option (List Nat)
  | [] => some []
  | c0 :: c1 :: c2 :: c3 :: rest =>
    if c3 = '=' then
      if rest = [] then decodeFinalGroup c0 c1 c2 else none
    else
      (charToSextet c0).bind (fun s0 =>
        (charToSextet c1).bind (fun s1 =>
          (charToSextet c2).bind (fun s2 =>
            (charToSextet c3).bind (fun s3 =>
              (decodeFromTransportText rest).map
                (fun bs => (s0 * 4 + s1 / 16) :: (s1 % 16 * 16 + s2 / 4) ::
                           (s2 % 4 * 64 + s3) :: bs)))))
  | _ => none

/-! ## Theorems -/

/-- Claim C1: the spec invariant - `updateVerseDisplay` under a true lock
flag must leave the display unchanged and be answered with a rejected
response - is violated by variant 1 of the code: its handler (App.tsx
lines 121-133) never consults the lock flag, replaces the verse, and
answers `{status: "displayed"}`, contradicting the source's own comment
"Only update if not locked".  This theorem evaluates variant 1's
dispatcher at the failing input: lock on, verse John 3:16 displayed, an
`updateVerseDisplay` command for John 3:17 arrives - the verse is
replaced and the response is "displayed". -/
theorem updateVerseDisplay_ignores_lock_v1 :
    (dispatchFcV1
      { currentVerse := some {
            reference := "John 3:16",
            text := "For God so loved the world",
            translation := "NIV" },
        isLocked := true, status := SessionStatus.listening }
      { id := "call-1", name := "updateVerseDisplay",
        argReference := some "John 3:17",
        argText := some "For God did not send his Son to condemn",
        argTranslation := some "NIV", argIsLocked := false }).1.currentVerse
      = some {
          reference := "John 3:17",
          text := "For God did not send his Son to condemn",
          translation := "NIV" } ∧
    (dispatchFcV1
      { currentVerse := some {
            reference := "John 3:16",
            text := "For God so loved the world",
            translation := "NIV" },
        isLocked := true, status := SessionStatus.listening }
      { id := "call-1", name := "updateVerseDisplay",
        argReference := some "John 3:17",
        argText := some "For God did not send his Son to condemn",
        argTranslation := some "NIV", argIsLocked := false }).2
      = some { id := "call-1", name := "updateVerseDisplay",
               payload := ResponsePayload.displayed } := by
  constructor <;> rfl

/-- Claim C3 counterexample: a local session stop does not perform the
hard interruption.  `stopSession` (variant 2, App.tsx lines 562-577)
closes the microphone and contexts but leaves `nextStartTimeRef` at its
old value 3 and the scheduled source in `sourcesRef`, unstopped -
whereas the claim requires every chunk stopped, the set cleared and the
cursor reset to 0 on session stop. -/
theorem session_stop_no_hard_interrupt_v2 :
    (stopSessionV2
      { status := SessionStatus.listening, sessionCloseRequested := false,
        micOpen := true, inputCtxOpen := true, outputCtxOpen := true,
        audioVolume := 0,
        playback := { nextStartTime := 3, active := [{ sid := 1, started := true, finished := false, stopped := false }] } }).playback.nextStartTime ≠ 0 ∧
    (stopSessionV2
      { status := SessionStatus.listening, sessionCloseRequested := false,
        micOpen := true, inputCtxOpen := true, outputCtxOpen := true,
        audioVolume := 0,
        playback := { nextStartTime := 3, active := [{ sid := 1, started := true, finished := false, stopped := false }] } }).playback.active
      = [{ sid := 1, started := true, finished := false, stopped := false }] := by
  constructor
  · intro h
    simp [stopSessionV2] at h
  · rfl

/-- Claim C3 (amended): the hard interruption operation `stopAllAudio` -
invoked on the remote "interrupted" signal - stops every started source
in the active set regardless of playback position, clears the set, and
resets `nextStartTime` to 0; stopping an already-finished (started)
source succeeds without raising an error, and the try/catch wrapper
swallows any exception. -/
theorem hard_interrupt_stops_all :
    ∀ (st : PlaybackState) (s : AudioSource),
    (stopAllAudio st).1.nextStartTime = 0 ∧
    (stopAllAudio st).1.active = [] ∧
    onInterrupted st = stopAllAudio st ∧
    (stopAllAudio st).2 = st.active.map tryStop ∧
    (s ∈ st.active → s.started = true → (tryStop s).stopped = true) ∧
    (s.started = true →
      sourceStopExc s = Except.ok { s with stopped := true }) ∧
    (s.started = true → s.finished = true →
      tryStop s = { s with stopped := true }) := by
  intro st s
  refine ⟨rfl, rfl, rfl, rfl, ?_, ?_, ?_⟩
  · intro _ hs
    simp [tryStop, sourceStopExc, hs]
  · intro hs
    simp [sourceStopExc, hs]
  · intro hs _
    simp [tryStop, sourceStopExc, hs]

/-- Witness for `hard_interrupt_stops_all` at a concrete started,
already-finished source. -/
theorem hard_interrupt_stops_all_witness :
    (tryStop { sid := 5, started := true, finished := true,
               stopped := false }).stopped = true ∧
    sourceStopExc { sid := 5, started := true, finished := true,
                    stopped := false }
      = Except.ok { sid := 5, started := true, finished := true,
                    stopped := true } := by
  constructor
  · exact (hard_interrupt_stops_all
      { nextStartTime := 2,
        active := [{ sid := 5, started := true, finished := true,
                     stopped := false }] }
      { sid := 5, started := true, finished := true,
        stopped := false }).2.2.2.2.1 (by simp) rfl
  · exact (hard_interrupt_stops_all
      { nextStartTime := 2, active := [] }
      { sid := 5, started := true, finished := true,
        stopped := false }).2.2.2.2.2.1 rfl

/-- Claim C4 counterexample: the local stop action does not
hard-interrupt playback.  After `stopSession` (variant 1, App.tsx lines
192-200) on a state with playback cursor 5 and one scheduled source,
`nextStartTime` is still 5 (the claim requires it reset to 0) and the
source remains in the active set, unstopped. -/
theorem stop_session_keeps_scheduler_v1 :
    (stopSessionV1
      { status := SessionStatus.listening, sessionCloseRequested := false,
        micOpen := true, inputCtxOpen := true, outputCtxOpen := true,
        audioVolume := 0,
        playback := { nextStartTime := 5, active := [{ sid := 2, started := true, finished := false, stopped := false }] } }).playback.nextStartTime ≠ 0 ∧
    (stopSessionV1
      { status := SessionStatus.listening, sessionCloseRequested := false,
        micOpen := true, inputCtxOpen := true, outputCtxOpen := true,
        audioVolume := 0,
        playback := { nextStartTime := 5, active := [{ sid := 2, started := true, finished := false, stopped := false }] } }).playback.active
      = [{ sid := 2, started := true, finished := false, stopped := false }] := by
  constructor
  · intro h
    simp [stopSessionV1] at h
  · rfl

/-- Claim C4 (amended): `stopSession`, in both variants, synchronously
schedules the transport close, stops the microphone stream, closes both
device contexts (failures swallowed) and transitions the session status
to Idle - but performs no hard interruption of the Playback Scheduler:
`nextStartTime` and the active source set are left untouched (variant 2
additionally resets the displayed input volume). -/
theorem stop_session_behaviour :
    ∀ st : AppResources,
    (stopSessionV1 st).status = SessionStatus.idle ∧
    (stopSessionV1 st).micOpen = false ∧
    (stopSessionV1 st).inputCtxOpen = false ∧
    (stopSessionV1 st).outputCtxOpen = false ∧
    (stopSessionV1 st).sessionCloseRequested = true ∧
    (stopSessionV1 st).playback = st.playback ∧
    (stopSessionV2 st).status = SessionStatus.idle ∧
    (stopSessionV2 st).micOpen = false ∧
    (stopSessionV2 st).inputCtxOpen = false ∧
    (stopSessionV2 st).outputCtxOpen = false ∧
    (stopSessionV2 st).sessionCloseRequested = true ∧
    (stopSessionV2 st).playback = st.playback ∧
    (stopSessionV2 st).audioVolume = 0 := by
  intro st
  exact ⟨rfl, rfl, rfl, rfl, rfl, rfl, rfl, rfl, rfl, rfl, rfl, rfl, rfl⟩

/-- Claim C5 counterexample: the outbound frame send is not a no-op
outside `Listening`.  With the session transport still open and the
status Idle (not Listening), variant 1's guard `status !== ERROR`
(App.tsx line 112) lets the frame through, and variant 2 (line 458) has
no guard at all - a frame is transmitted, where the claim requires a
silent no-op and zero frames. -/
theorem capture_send_not_guarded :
    SessionStatus.idle ≠ SessionStatus.listening ∧
    captureCallbackV1 SessionStatus.idle false = SendOutcome.transmitted ∧
    captureCallbackV2 SessionStatus.idle false = SendOutcome.transmitted := by
  refine ⟨by simp, rfl, rfl⟩

/-- Claim C5 (amended): variant 1's capture callback skips the send
exactly when the status it observes is `ERROR`; variant 2 always
attempts it.  Neither ever throws (the promise `.catch` swallows send
failures), and once the session transport is closed - as it is after the
deferred `session.close()` of the stop action runs - no frame is
transmitted, in either variant, whatever the status. -/
theorem capture_send_guard :
    ∀ (st : SessionStatus) (closed : Bool),
    (captureCallbackV1 st closed = SendOutcome.notAttempted ↔
      st = SessionStatus.error) ∧
    captureCallbackV2 st closed ≠ SendOutcome.notAttempted ∧
    (closed = true →
      captureCallbackV1 st closed ≠ SendOutcome.transmitted ∧
      captureCallbackV2 st closed ≠ SendOutcome.transmitted) := by
  intro st closed
  cases st <;> cases closed <;> simp [captureCallbackV1, captureCallbackV2]

/-- Witness for `capture_send_guard`: status Idle, closed transport. -/
theorem capture_send_guard_witness :
    captureCallbackV1 SessionStatus.idle true ≠ SendOutcome.transmitted ∧
    captureCallbackV2 SessionStatus.idle true ≠ SendOutcome.transmitted :=
  (capture_send_guard SessionStatus.idle true).2.2 rfl

/-- Claim C7 counterexample: the capture quantization is not
`round(s * 32768)` clipped to `[-32768, 32767]`.  At the full-scale
sample `s = 1` the code's `Int16Array` store computes
`ToInt16(32768) = -32768` (wrap-around), while the claimed formula gives
the clipped value 32767. -/
theorem quantize_not_round_clip :
    quantizeSample 1 = -32768 ∧ specQuantize 1 = 32767 ∧
    quantizeSample 1 ≠ specQuantize 1 := by
  refine ⟨?_, ?_, ?_⟩ <;> norm_num [quantizeSample, toInt16, ratTrunc,
    specQuantize, round_eq]

/-- Claim C7 (amended): each float sample `s` is quantized by the
`Int16Array` element store to ECMAScript `ToInt16(s * 32768)`:
truncation toward zero followed by 16-bit wrap-around - no rounding and
no clipping.  For in-range samples `-1 ≤ s < 1` no wrap occurs: the
stored value is exactly the truncation of `s * 32768` and lies in
`[-32768, 32767]`. -/
theorem quantize_in_range :
    ∀ s : ℚ, -1 ≤ s → s < 1 →
    quantizeSample s = ratTrunc (s * 32768) ∧
    -32768 ≤ quantizeSample s ∧ quantizeSample s ≤ 32767 := by
  intro s h1 h2
  have hb : -32768 ≤ ratTrunc (s * 32768) ∧ ratTrunc (s * 32768) ≤ 32767 := by
    unfold ratTrunc
    split_ifs with h
    · constructor
      · have h0 : (0 : ℤ) ≤ ⌊s * 32768⌋ := Int.floor_nonneg.mpr h
        omega
      · have hlt : ⌊s * 32768⌋ < 32768 := by
          apply Int.floor_lt.mpr
          push_cast
          linarith
        omega
    · push_neg at h
      constructor
      · have hle : ((-32768 : ℤ) : ℚ) ≤ s * 32768 := by
          push_cast
          linarith
        have := Int.ceil_le_ceil hle
        rwa [Int.ceil_intCast] at this
      · have h0 : ⌈s * 32768⌉ ≤ 0 := by
          apply Int.ceil_le.mpr
          push_cast
          linarith
        omega
  have hq : quantizeSample s = toInt16 (s * 32768) := rfl
  rw [hq]
  unfold toInt16
  simp only []
  split_ifs with h <;> omega

/-- Witness for `quantize_in_range` at the sample `s = 1/2`. -/
theorem quantize_in_range_witness :
    quantizeSample (1/2) = ratTrunc ((1/2 : ℚ) * 32768) ∧
    -32768 ≤ quantizeSample (1/2) ∧ quantizeSample (1/2) ≤ 32767 :=
  quantize_in_range (1/2) (by norm_num) (by norm_num)

/-- The responses emitted by variant 1's dispatch loop are, in order,
one response per recognized command, carrying that command's id and
name. -/
theorem dispatchMessageV1_responses :
    ∀ (fcs : List FunctionCall) (st : AppStateV1),
    (dispatchMessageV1 st fcs).2.map (fun r => (r.id, r.name)) =
      (fcs.filter (fun fc => recognizedV1 fc.name)).map
        (fun fc => (fc.id, fc.name))
  | [], _ => rfl
  | fc :: rest, st => by
    by_cases h1 : fc.name = "updateVerseDisplay"
    · simp [dispatchMessageV1, dispatchFcV1, recognizedV1, h1,
        dispatchMessageV1_responses rest]
    · by_cases h2 : fc.name = "toggleVerseLock"
      · simp [dispatchMessageV1, dispatchFcV1, recognizedV1, h1, h2,
          dispatchMessageV1_responses rest]
      · simp [dispatchMessageV1, dispatchFcV1, recognizedV1, h1, h2,
          dispatchMessageV1_responses rest]

/-- The responses emitted by variant 2's dispatch loop are, in order,
one response per recognized command, carrying that command's id and
name. -/
theorem dispatchMessageGoV2_responses :
    ∀ (fcs : List FunctionCall) (lock0 : Bool) (trans0 : String)
      (st : AppStateV2),
    (dispatchMessageGoV2 lock0 trans0 st fcs).2.map (fun r => (r.id, r.name)) =
      (fcs.filter (fun fc => recognizedV2 fc.name)).map
        (fun fc => (fc.id, fc.name))
  | [], _, _, _ => rfl
  | fc :: rest, lock0, trans0, st => by
    by_cases h1 : fc.name = "updateVerseDisplay"
    · simp [dispatchMessageGoV2, dispatchFcV2, recognizedV2, h1,
        dispatchMessageGoV2_responses rest]
    · by_cases h2 : fc.name = "setTranslation"
      · simp [dispatchMessageGoV2, dispatchFcV2, recognizedV2, h1, h2,
          dispatchMessageGoV2_responses rest]
      · simp [dispatchMessageGoV2, dispatchFcV2, recognizedV2, h1, h2,
          dispatchMessageGoV2_responses rest]

/-- Claim C6: in both variants, each recognized command inside an
inbound `toolCall` message produces exactly one response, correlated by
the command's id (and name), in command order; unrecognized command
names produce no response at all. -/
theorem toolcall_exactly_one_response :
    ∀ (st1 : AppStateV1) (st2 : AppStateV2) (fcs : List FunctionCall),
    (dispatchMessageV1 st1 fcs).2.map (fun r => (r.id, r.name)) =
      (fcs.filter (fun fc => recognizedV1 fc.name)).map
        (fun fc => (fc.id, fc.name)) ∧
    (dispatchMessageV2 st2 fcs).2.map (fun r => (r.id, r.name)) =
      (fcs.filter (fun fc => recognizedV2 fc.name)).map
        (fun fc => (fc.id, fc.name)) := by
  intro st1 st2 fcs
  exact ⟨dispatchMessageV1_responses fcs st1,
    dispatchMessageGoV2_responses fcs st2.isLocked st2.defaultTranslation st2⟩

/-- The highlight index after `n` ticks is the clamp of `n` at
`wordCount - 1`. -/
theorem highlightAfter_eq_min (W : ℕ) (hW : 1 ≤ W) :
    ∀ n : ℕ, highlightAfter W n = min (n : ℤ) ((W : ℤ) - 1) := by
  intro n
  induction n with
  | zero =>
    simp [highlightAfter]
    omega
  | succ n ih =>
    rw [highlightAfter, ih, highlightTick]
    split_ifs with h <;> push_cast <;> omega

/-- Claim C9: the narration synchronizer uses per-word interval
`(duration * FRACTION) / wordCount` with `FRACTION` 0.9 (variant 1) and
0.85 (variant 2), both within 0.85-0.9; the highlighted index never
exceeds `wordCount - 1`; playback end cancels the timer and clears the
index; and in the 6-word, 3.0-second, fraction-0.9 scenario the interval
is 0.45 s, the index climbs one word per tick to 5 by 2.25 s and then
holds at 5. -/
theorem narration_highlight_schedule :
    ∀ (W : ℕ) (D : ℚ) (n : ℕ) (ns : NarrationState), 1 ≤ W →
    (durationPerWordV1 D W = D * highlightFractionV1 / W ∧
     durationPerWordV2 D W = D * highlightFractionV2 / W ∧
     (17/20 : ℚ) ≤ highlightFractionV1 ∧ highlightFractionV1 ≤ 9/10 ∧
     (17/20 : ℚ) ≤ highlightFractionV2 ∧ highlightFractionV2 ≤ 9/10) ∧
    highlightAfter W n ≤ (W : ℤ) - 1 ∧
    ((narrationEnded ns).timerActive = false ∧
     (narrationEnded ns).activeWordIndex = -1) ∧
    (durationPerWordV1 3 6 = 9/20 ∧
     (∀ k : ℕ, k ≤ 5 → highlightAfter 6 k = k) ∧
     (∀ k : ℕ, 5 ≤ k → highlightAfter 6 k = 5) ∧
     (5 : ℚ) * durationPerWordV1 3 6 = 9/4) := by
  intro W D n ns hW
  refine ⟨⟨rfl, rfl, by norm_num [highlightFractionV1],
      by norm_num [highlightFractionV1], by norm_num [highlightFractionV2],
      by norm_num [highlightFractionV2]⟩, ?_, ⟨rfl, rfl⟩, ?_, ?_, ?_, ?_⟩
  · rw [highlightAfter_eq_min W hW n]
    omega
  · norm_num [durationPerWordV1, highlightFractionV1]
  · intro k hk
    rw [highlightAfter_eq_min 6 (by norm_num) k]
    omega
  · intro k hk
    rw [highlightAfter_eq_min 6 (by norm_num) k]
    omega
  · norm_num [durationPerWordV1, highlightFractionV1]

/-- Witness for `narration_highlight_schedule` at the spec scenario:
6 words, 3-second clip, 7 elapsed ticks. -/
theorem narration_highlight_schedule_witness :
    highlightAfter 6 7 ≤ (6 : ℤ) - 1 ∧ durationPerWordV1 3 6 = 9/20 :=
  ⟨(narration_highlight_schedule 6 3 7
      { activeWordIndex := 0, timerActive := true, isReadingAloud := true }
      (by norm_num)).2.1,
   (narration_highlight_schedule 6 3 7
      { activeWordIndex := 0, timerActive := true, isReadingAloud := true }
      (by norm_num)).2.2.2.1⟩

/-- Every playback window produced from scheduler state `st` starts no
earlier than `st.nextStartTime`, provided chunk durations are
nonnegative. -/
theorem runWindows_start_ge :
    ∀ (chunks : List (ℚ × ℚ)) (st : SchedState) (w : ℚ × ℚ),
    w ∈ runWindows st chunks → (∀ c ∈ chunks, 0 ≤ c.2) →
    st.nextStartTime ≤ w.1
  | [], _, _ => by
    intro hw _
    simp [runWindows] at hw
  | c :: rest, st, w => by
    intro hw hd
    rw [runWindows] at hw
    rcases List.mem_cons.mp hw with h | h
    · have : w.1 = max st.nextStartTime c.1 := by
        rw [h]
        rfl
      rw [this]
      exact le_max_left _ _
    · have hrec := runWindows_start_ge rest _ w h
        (fun x hx => hd x (List.mem_cons_of_mem _ hx))
      have hc : 0 ≤ c.2 := hd c (List.mem_cons_self _ _)
      have : st.nextStartTime ≤ max st.nextStartTime c.1 + c.2 := by
        have := le_max_left st.nextStartTime c.1
        linarith
      calc st.nextStartTime ≤ max st.nextStartTime c.1 + c.2 := this
        _ ≤ w.1 := hrec

/-- With positive chunk durations, the playback windows produced from
any scheduler state are pairwise gap-ordered: each earlier window ends
no later than each later window starts (hence windows are disjoint and
chunks play in arrival order). -/
theorem runWindows_pairwise :
    ∀ (chunks : List (ℚ × ℚ)) (st : SchedState),
    (∀ c ∈ chunks, 0 < c.2) →
    List.Pairwise (fun a b => a.1 + a.2 ≤ b.1 ∧ a.1 < b.1)
      (runWindows st chunks)
  | [], _ => by
    intro _
    simp [runWindows]
  | c :: rest, st => by
    intro hd
    rw [runWindows]
    refine List.Pairwise.cons ?_
      (runWindows_pairwise rest _
        (fun x hx => hd x (List.mem_cons_of_mem _ hx)))
    intro w hw
    have hge := runWindows_start_ge rest _ w hw
      (fun x hx => le_of_lt (hd x (List.mem_cons_of_mem _ hx)))
    have hc : 0 < c.2 := hd c (List.mem_cons_self _ _)
    have hst : (scheduleChunk st c.1 c.2 0).1.nextStartTime
        = max st.nextStartTime c.1 + c.2 := rfl
    rw [hst] at hge
    have hfst : ((scheduleChunk st c.1 c.2 0).2, c.2).1
        = max st.nextStartTime c.1 := rfl
    constructor
    · rw [hfst]
      show max st.nextStartTime c.1 + c.2 ≤ w.1
      exact hge
    · rw [hfst]
      linarith

/-- Claim C2: on each chunk arrival the scheduler sets the start cursor
to `max(nextStartTime, currentTime)`, starts the chunk exactly there,
advances the cursor by the chunk's duration and records the handle in
the active set (removed again on `onended`); consequently, for any
arrival sequence with positive durations, the resulting playback
windows are non-overlapping and in strict arrival order. -/
theorem playback_gapless_in_order :
    ∀ (st : SchedState) (now dur : ℚ) (h : Nat) (chunks : List (ℚ × ℚ)),
    (scheduleChunk st now dur h).2 = max st.nextStartTime now ∧
    (scheduleChunk st now dur h).1.nextStartTime
      = max st.nextStartTime now + dur ∧
    (scheduleChunk st now dur h).1.active = h :: st.active ∧
    (sourceEnded st h).active = st.active.erase h ∧
    ((∀ c ∈ chunks, 0 < c.2) →
      List.Pairwise (fun a b => a.1 + a.2 ≤ b.1 ∧ a.1 < b.1)
        (runWindows schedInit chunks)) := by
  intro st now dur h chunks
  exact ⟨rfl, rfl, rfl, rfl, fun hd => runWindows_pairwise chunks schedInit hd⟩

/-- Witness for `playback_gapless_in_order`: two chunks, the first
arriving at clock time 0 with duration 1, the second at clock time 2
with duration 1/2. -/
theorem playback_gapless_in_order_witness :
    List.Pairwise (fun a b => a.1 + a.2 ≤ b.1 ∧ a.1 < b.1)
      (runWindows schedInit [((0 : ℚ), (1 : ℚ)), ((2 : ℚ), (1/2 : ℚ))]) :=
  (playback_gapless_in_order schedInit 0 1 0
    [((0 : ℚ), (1 : ℚ)), ((2 : ℚ), (1/2 : ℚ))]).2.2.2.2
    (by norm_num)

/-- Claim C10: an applied `updateVerseDisplay` whose reference or text
field is absent or empty stores the placeholder "..." for that field
(never keeping the prior verse and never rejecting), and in variant 1 -
which has no configurable default translation - an absent or empty
translation is stored as the literal "NIV". -/
theorem update_display_placeholder_defaults :
    ∀ (st1 : AppStateV1) (st2 : AppStateV2) (trans0 : String)
      (fc : FunctionCall),
    fc.name = "updateVerseDisplay" →
    ((fc.argReference = none ∨ fc.argReference = some "") →
      (dispatchFcV1 st1 fc).1.currentVerse.map VerseData.reference
        = some "..." ∧
      (dispatchFcV2 false trans0 st2 fc).1.currentVerse.map
        VerseData.reference = some "...") ∧
    ((fc.argText = none ∨ fc.argText = some "") →
      (dispatchFcV1 st1 fc).1.currentVerse.map VerseData.text
        = some "..." ∧
      (dispatchFcV2 false trans0 st2 fc).1.currentVerse.map
        VerseData.text = some "...") ∧
    ((fc.argTranslation = none ∨ fc.argTranslation = some "") →
      (dispatchFcV1 st1 fc).1.currentVerse.map VerseData.translation
        = some "NIV") := by
  intro st1 st2 trans0 fc hname
  refine ⟨?_, ?_, ?_⟩ <;> rintro (h | h) <;>
    simp [dispatchFcV1, dispatchFcV2, strOr, hname, h]

/-- Witness for `update_display_placeholder_defaults`: a command with
every argument field absent. -/
theorem update_display_placeholder_defaults_witness :
    (dispatchFcV1 { currentVerse := none, isLocked := false, status := SessionStatus.idle }
      { id := "id1", name := "updateVerseDisplay", argReference := none, argText := none, argTranslation := none, argIsLocked := false }).1.currentVerse.map
      VerseData.reference = some "..." ∧
    (dispatchFcV1 { currentVerse := none, isLocked := false, status := SessionStatus.idle }
      { id := "id1", name := "updateVerseDisplay", argReference := none, argText := none, argTranslation := none, argIsLocked := false }).1.currentVerse.map
      VerseData.translation = some "NIV" :=
  ⟨((update_display_placeholder_defaults
      { currentVerse := none, isLocked := false, status := SessionStatus.idle }
      { currentVerse := none, isLocked := false, defaultTranslation := "ESV" }
      "ESV"
      { id := "id1", name := "updateVerseDisplay", argReference := none, argText := none, argTranslation := none, argIsLocked := false }
      rfl).1 (Or.inl rfl)).1,
   (update_display_placeholder_defaults
      { currentVerse := none, isLocked := false, status := SessionStatus.idle }
      { currentVerse := none, isLocked := false, defaultTranslation := "ESV" }
      "ESV"
      { id := "id1", name := "updateVerseDisplay", argReference := none, argText := none, argTranslation := none, argIsLocked := false }
      rfl).2.2 (Or.inl rfl)⟩

/-- Decoding the character of any sextet value below 64 recovers the
sextet. -/
theorem charToSextet_sextetToChar :
    ∀ n : Nat, n < 64 → charToSextet (sextetToChar n) = some n := by
  decide

/-- No base64 alphabet character is the padding character. -/
theorem sextetToChar_ne_pad :
    ∀ n : Nat, n < 64 → sextetToChar n ≠ '=' := by
  decide

/-- A successful `charIndex` lookup names a position holding the
character. -/
theorem charIndex_spec :
    ∀ (l : List Char) (c : Char) (i : Nat),
    charIndex c l = some i → i < l.length ∧ l.getD i 'A' = c
  | [], c, i => by
    intro h
    simp [charIndex] at h
  | a :: rest, c, i => by
    intro h
    rw [charIndex] at h
    by_cases hac : a = c
    · rw [if_pos hac] at h
      have hi : i = 0 := by
        simpa using h.symm
      subst hi
      exact ⟨by simp, by simpa using hac⟩
    · rw [if_neg hac] at h
      rw [Option.map_eq_some'] at h
      obtain ⟨j, hj, hi⟩ := h
      have hs := charIndex_spec rest c j hj
      subst hi
      refine ⟨by simpa using Nat.succ_lt_succ hs.1, ?_⟩
      simpa [List.getD_cons_succ] using hs.2

/-- A character with a sextet value has value below 64 and is recovered
by `sextetToChar`. -/
theorem charToSextet_spec (c : Char) (s : Nat)
    (h : charToSextet c = some s) : s < 64 ∧ sextetToChar s = c := by
  have hs := charIndex_spec b64Alphabet c s h
  have hlen : b64Alphabet.length = 64 := by decide
  exact ⟨hlen ▸ hs.1, hs.2⟩

/-- Encoded transport text always has length divisible by four. -/
theorem encode_length_mod4 :
    ∀ B : List Nat, (encodeToTransportText B).length % 4 = 0
  | [] => rfl
  | [_] => by simp [encodeToTransportText]
  | [_, _] => by simp [encodeToTransportText]
  | _ :: _ :: _ :: rest => by
    rw [encodeToTransportText]
    have := encode_length_mod4 rest
    simp only [List.length_cons]
    omega

/-- Round-trip: decoding an encoded byte sequence recovers it. -/
theorem decode_encode :
    ∀ B : List Nat, (∀ b ∈ B, b < 256) →
    decodeFromTransportText (encodeToTransportText B) = some B
  | [], _ => rfl
  | [b0], h => by
    have hb0 : b0 < 256 := h b0 (by simp)
    rw [encodeToTransportText, decodeFromTransportText]
    have e1 : b0 / 4 * 4 + b0 % 4 * 16 / 16 = b0 := by omega
    have e1b : b0 / 4 * 4 + b0 % 4 = b0 := by omega
    simp [decodeFinalGroup,
      charToSextet_sextetToChar (b0 / 4) (by omega),
      charToSextet_sextetToChar (b0 % 4 * 16) (by omega),
      Nat.mul_mod_left, e1, e1b]
  | [b0, b1], h => by
    have hb0 : b0 < 256 := h b0 (by simp)
    have hb1 : b1 < 256 := h b1 (by simp)
    rw [encodeToTransportText, decodeFromTransportText]
    have e1 : b0 / 4 * 4 + (b0 % 4 * 16 + b1 / 16) / 16 = b0 := by omega
    have e2 : (b0 % 4 * 16 + b1 / 16) % 16 * 16 + b1 % 16 * 4 / 4 = b1 := by
      omega
    have e2b : (b0 % 4 * 16 + b1 / 16) % 16 * 16 + b1 % 16 = b1 := by omega
    simp [decodeFinalGroup,
      charToSextet_sextetToChar (b0 / 4) (by omega),
      charToSextet_sextetToChar (b0 % 4 * 16 + b1 / 16) (by omega),
      charToSextet_sextetToChar (b1 % 16 * 4) (by omega),
      sextetToChar_ne_pad (b1 % 16 * 4) (by omega),
      Nat.mul_mod_left, e1, e2, e2b]
  | b0 :: b1 :: b2 :: rest, h => by
    have hb0 : b0 < 256 := h b0 (by simp)
    have hb1 : b1 < 256 := h b1 (by simp)
    have hb2 : b2 < 256 := h b2 (by simp)
    have ih := decode_encode rest (fun b hb => h b (by simp [hb]))
    rw [encodeToTransportText, decodeFromTransportText]
    have e1 : b0 / 4 * 4 + (b0 % 4 * 16 + b1 / 16) / 16 = b0 := by omega
    have e2 : (b0 % 4 * 16 + b1 / 16) % 16 * 16
        + (b1 % 16 * 4 + b2 / 64) / 4 = b1 := by omega
    have e3 : (b1 % 16 * 4 + b2 / 64) % 4 * 64 + b2 % 64 = b2 := by omega
    simp [charToSextet_sextetToChar (b0 / 4) (by omega),
      charToSextet_sextetToChar (b0 % 4 * 16 + b1 / 16) (by omega),
      charToSextet_sextetToChar (b1 % 16 * 4 + b2 / 64) (by omega),
      charToSextet_sextetToChar (b2 % 64) (by omega),
      sextetToChar_ne_pad (b2 % 64) (by omega),
      ih, e1, e2, e3]

/-- Canonicity: anything the strict decoder accepts is the encoding of
what it returns. -/
theorem decode_inv :
    ∀ (t : List Char) (B : List Nat),
    decodeFromTransportText t = some B → encodeToTransportText B = t
  | [], B => by
    intro h
    simp [decodeFromTransportText] at h
    subst h
    rfl
  | [_] , B => by
    intro h
    simp [decodeFromTransportText] at h
  | [_, _], B => by
    intro h
    simp [decodeFromTransportText] at h
  | [_, _, _], B => by
    intro h
    simp [decodeFromTransportText] at h
  | c0 :: c1 :: c2 :: c3 :: rest, B => by
    intro h
    rw [decodeFromTransportText] at h
    by_cases h3 : c3 = '='
    · subst h3
      rw [if_pos rfl] at h
      by_cases hr : rest = []
      · subst hr
        rw [if_pos rfl] at h
        simp only [decodeFinalGroup] at h
        cases e0 : charToSextet c0 with
        | none => rw [e0] at h; simp at h
        | some s0 =>
          cases e1 : charToSextet c1 with
          | none => rw [e0, e1] at h; simp at h
          | some s1 =>
            rw [e0, e1] at h
            simp only [Option.some_bind'] at h
            obtain ⟨hs0, hc0⟩ := charToSextet_spec c0 s0 e0
            obtain ⟨hs1, hc1⟩ := charToSextet_spec c1 s1 e1
            by_cases h2 : c2 = '='
            · subst h2
              rw [if_pos rfl] at h
              by_cases hm : s1 % 16 = 0
              · rw [if_pos hm] at h
                have hB : B = [s0 * 4 + s1 / 16] := by
                  simpa using h.symm
                subst hB
                rw [encodeToTransportText]
                have a1 : (s0 * 4 + s1 / 16) / 4 = s0 := by omega
                have a2 : (s0 * 4 + s1 / 16) % 4 * 16 = s1 := by omega
                rw [a1, a2, hc0, hc1]
              · rw [if_neg hm] at h
                simp at h
            · rw [if_neg h2] at h
              cases e2 : charToSextet c2 with
              | none => rw [e2] at h; simp at h
              | some s2 =>
                rw [e2] at h
                simp only [Option.some_bind'] at h
                obtain ⟨hs2, hc2⟩ := charToSextet_spec c2 s2 e2
                by_cases hm : s2 % 4 = 0
                · rw [if_pos hm] at h
                  have hB : B = [s0 * 4 + s1 / 16, s1 % 16 * 16 + s2 / 4] := by
                    simpa using h.symm
                  subst hB
                  rw [encodeToTransportText]
                  have a1 : (s0 * 4 + s1 / 16) / 4 = s0 := by omega
                  have a2 : (s0 * 4 + s1 / 16) % 4 * 16
                      + (s1 % 16 * 16 + s2 / 4) / 16 = s1 := by omega
                  have a3 : (s1 % 16 * 16 + s2 / 4) % 16 * 4 = s2 := by omega
                  rw [a1, a2, a3, hc0, hc1, hc2]
                · rw [if_neg hm] at h
                  simp at h
      · rw [if_neg hr] at h
        simp at h
    · rw [if_neg h3] at h
      cases e0 : charToSextet c0 with
      | none => rw [e0] at h; simp at h
      | some s0 =>
        cases e1 : charToSextet c1 with
        | none => rw [e0, e1] at h; simp at h
        | some s1 =>
          cases e2 : charToSextet c2 with
          | none => rw [e0, e1, e2] at h; simp at h
          | some s2 =>
            cases e3 : charToSextet c3 with
            | none => rw [e0, e1, e2, e3] at h; simp at h
            | some s3 =>
              rw [e0, e1, e2, e3] at h
              simp only [Option.some_bind', Option.map_eq_some'] at h
              obtain ⟨bs, hbs, hB⟩ := h
              have ih := decode_inv rest bs hbs
              obtain ⟨hs0, hc0⟩ := charToSextet_spec c0 s0 e0
              obtain ⟨hs1, hc1⟩ := charToSextet_spec c1 s1 e1
              obtain ⟨hs2, hc2⟩ := charToSextet_spec c2 s2 e2
              obtain ⟨hs3, hc3⟩ := charToSextet_spec c3 s3 e3
              rw [← hB]
              rw [encodeToTransportText]
              have a1 : (s0 * 4 + s1 / 16) / 4 = s0 := by omega
              have a2 : (s0 * 4 + s1 / 16) % 4 * 16
                  + (s1 % 16 * 16 + s2 / 4) / 16 = s1 := by omega
              have a3 : (s1 % 16 * 16 + s2 / 4) % 16 * 4
                  + (s2 % 4 * 64 + s3) / 64 = s2 := by omega
              have a4 : (s2 % 4 * 64 + s3) % 64 = s3 := by omega
              rw [a1, a2, a3, a4, hc0, hc1, hc2, hc3, ih]

/-- Claim C8 (spec-modelled: `encodeToTransportText` and
`decodeFromTransportText` live in `utils/audioUtils`, which is not among
the provided sources, and are modelled from spec section 4.1): decoding
an encoded byte sequence recovers it exactly, and decoding fails - the
`MalformedPayload` outcome, `none` - on every input the encoder cannot
produce. -/
theorem transport_text_roundtrip :
    (∀ B : List Nat, (∀ b ∈ B, b < 256) →
      decodeFromTransportText (encodeToTransportText B) = some B) ∧
    (∀ t : List Char, (∀ B : List Nat, encodeToTransportText B ≠ t) →
      decodeFromTransportText t = none) := by
  constructor
  · exact decode_encode
  · intro t ht
    cases hd : decodeFromTransportText t with
    | none => rfl
    | some B => exact absurd (decode_inv t B hd) (ht B)

/-- Witness for `transport_text_roundtrip`: the bytes `[72, 105, 33]`
round-trip, and the length-one text "A" - producible by no encoding -
is rejected. -/
theorem transport_text_roundtrip_witness :
    decodeFromTransportText (encodeToTransportText [72, 105, 33])
      = some [72, 105, 33] ∧
    decodeFromTransportText ['A'] = none :=
  ⟨transport_text_roundtrip.1 [72, 105, 33] (by decide),
   transport_text_roundtrip.2 ['A'] (by
     intro B hB
     have h4 := encode_length_mod4 B
     rw [hB] at h4
     simp at h4)⟩

end InspiredAI
